import Mathlib

/-!
# Verification of the filterPipeline runtime core

Shallow embedding of the packet / port / context / scheduler quartet of
the `filterPipeline` repository (`src/packet.h`, `src/port.h`,
`src/calculatorcontext.h`, `src/scheduler.h`, and the exception classes),
together with theorems settling the specification's claims about them.

Machine integers (`long long`, `size_t`) are modelled as `Int` / `Nat`;
none of the operations involved comes near overflow, and the source
relies on ordinary integer arithmetic only.
-/

namespace FilterPipeline

/-! ## Error model

The source surfaces errors as C++ exception objects.  There are three
exception classes (`packetexception.h`, `calculatorexception.h`,
`portexception.h`), each carrying only a message string.  A raised error
is modelled as the pair of its class and its message. -/

inductive CppClass : Type
  | packetException
  | calculatorException
  | portException
  deriving DecidableEq

structure CppError : Type where
  cls : CppClass
  msg : String
  deriving DecidableEq

/-- Taxonomy: the five error kinds named by the specification's error taxonomy. -/
inductive ErrKind : Type
  | kindEmpty
  | kindTypeMismatch
  | kindUnknownPort
  | kindUnknownSideParameter
  | kindEmptyPipeline
  deriving DecidableEq

/-- Error thrown by `Packet::get` when `holder` is null
(`packet.h`, line 150). -/
def errPacketEmpty : CppError :=
  ⟨.packetException, "get<T> Packet is empty"⟩

/-- Error thrown by `Packet::get` when the dynamic cast fails
(`packet.h`, line 154). -/
def errTypeMismatch : CppError :=
  ⟨.packetException, "get<T> Invalid T type access in Packet"⟩

/-- Error thrown by `CalculatorContext::getInputPort` on an unknown tag
(`calculatorcontext.h`, line 106). -/
def errUnknownInputPort (tag : String) : CppError :=
  ⟨.calculatorException, "No such input port: " ++ tag⟩

/-- Error thrown by `CalculatorContext::getOutputPort` on an unknown tag
(`calculatorcontext.h`, line 120). -/
def errUnknownOutputPort (tag : String) : CppError :=
  ⟨.calculatorException, "No such output port: " ++ tag⟩

/-- Error thrown by `CalculatorContext::getSidePacket` on an unknown tag
(`calculatorcontext.h`, line 134). -/
def errUnknownSidePacket (tag : String) : CppError :=
  ⟨.calculatorException, "No such side packet: " ++ tag⟩

/-- Error thrown by `Scheduler::connectCalculators` on an empty pipeline
(`scheduler.h`, line 135). -/
def errEmptyPipeline : CppError :=
  ⟨.calculatorException, "Error: No calculators registered to connect."⟩

/-- Error thrown by `Scheduler::run` on an empty pipeline
(`scheduler.h`, line 190). -/
def errEmptyPipelineRun : CppError :=
  ⟨.calculatorException, "No calculators registered to run."⟩

/-- The error object each taxonomy kind is surfaced as (representative
raise site; the port kinds take the tag `""` as representative). -/
def ErrKind.surface : ErrKind → CppError
  | .kindEmpty => errPacketEmpty
  | .kindTypeMismatch => errTypeMismatch
  | .kindUnknownPort => errUnknownInputPort ""
  | .kindUnknownSideParameter => errUnknownSidePacket ""
  | .kindEmptyPipeline => errEmptyPipeline

/-! ## Packet (`packet.h`)

The payload is type-erased: `PacketHolder<T>` wraps a value of type `T`
and `Packet::get<T>` recovers it through a checked `dynamic_cast`, which
succeeds exactly when the holder was built for the same `T`.  The
payload universe is modelled by a closed inductive carrying its type
tag; the cast check compares tags. -/

inductive Ty : Type
  | tInt
  | tStr
  | tBool
  deriving DecidableEq

inductive Payload : Type
  | pInt (n : Int)
  | pStr (s : String)
  | pBool (b : Bool)
  deriving DecidableEq

/-- The erased type a payload was constructed with. -/
def Payload.ty : Payload → Ty
  | .pInt _ => .tInt
  | .pStr _ => .tStr
  | .pBool _ => .tBool

/-- Constant `Packet::kInvalidTimestamp` (`packet.h`, line 206). -/
def kInvalidTimestamp : Int := -11111111

/-- A `Packet`: polymorphic `holder` (null-able `unique_ptr`) plus a
`long long` timestamp. -/
structure Packet : Type where
  holder : Option Payload
  timestamp : Int
  deriving DecidableEq

/-- The default constructor `Packet()`: null holder, sentinel timestamp. -/
def Packet.emptyPkt : Packet :=
  ⟨none, kInvalidTimestamp⟩

/-- Predicate `Packet::isValid` (`packet.h`, lines 137-139). -/
def Packet.isValid (p : Packet) : Bool :=
  p.timestamp != kInvalidTimestamp && p.holder != none

/-- Accessor `Packet::getTimestamp`. -/
def Packet.getTimestamp (p : Packet) : Int := p.timestamp

/-- Operation `Packet::get<T>` (`packet.h`, lines 147-157): throws `errPacketEmpty`
when `holder` is null, `errTypeMismatch` when the `dynamic_cast` to
`PacketHolder<T>` fails (i.e. the erased payload was built with a
different type), and otherwise returns the stored payload. -/
def Packet.get (T : Ty) (p : Packet) : Except CppError Payload :=
  match p.holder with
  | none => .error errPacketEmpty
  | some pay => if pay.ty = T then .ok pay else .error errTypeMismatch

/-- Move construction / move assignment (`packet.h`, lines 72-92): the
destination takes the holder and timestamp, the source is left with a
null holder and the sentinel timestamp.  Returns
`(destination, moved-from source)`. -/
def Packet.moveFrom (a : Packet) : Packet × Packet :=
  (⟨a.holder, a.timestamp⟩, Packet.emptyPkt)

/-! ## Timestamp generator (`packet.h`, lines 193-202)

`currentTimestamp` reads `CLOCK_MONOTONIC` into a `timespec`, converts
it with `tv_sec * 10000000LL + tv_nsec`, bumps to `lastTimestamp + 1`
when the conversion is not strictly above `lastTimestamp`, and stores
the result back into the static `lastTimestamp`.  The clock reading is
an oracle input here; the arithmetic is the source's. -/

structure TimeSpec : Type where
  tv_sec : Int
  tv_nsec : Int
  deriving DecidableEq

/-- The conversion `static_cast<long long>(ts.tv_sec) * 10000000LL + ts.tv_nsec`
performed by `Packet::currentTimestamp` (`packet.h`, line 196). -/
def convertReading (ts : TimeSpec) : Int :=
  ts.tv_sec * 10000000 + ts.tv_nsec

/-- Modelled from the spec: the conversion of a `timespec` to a count of
microseconds, which §4.1 and the source's own comments say
`currentTimestamp` performs.  (Not present in the code; used to compare
against `convertReading`.) -/
def microsOfReading (ts : TimeSpec) : Int :=
  ts.tv_sec * 1000000 + ts.tv_nsec / 1000

/-- One call of `currentTimestamp` given the clock reading and the
current `lastTimestamp`; returns `(returned value, new lastTimestamp)`. -/
def currentTimestamp (ts : TimeSpec) (last : Int) : Int × Int :=
  let current := convertReading ts
  let current := if current ≤ last then last + 1 else current
  (current, current)

/-- The sequence of values returned by successive `currentTimestamp`
calls for a given sequence of clock readings, threading `lastTimestamp`. -/
def genTimestamps (last : Int) : List TimeSpec → List Int
  | [] => []
  | ts :: rest =>
    let r := currentTimestamp ts last
    r.1 :: genTimestamps r.2 rest

/-! ## Port (`port.h`)

A bounded deque of packets (front at the head of the list), the
`latestTimestamp` watermark, and the capacity `MAX_QUEUE_SIZE`. -/

structure Port : Type where
  dataQueue : List Packet
  latestTimestamp : Int
  maxQueueSize : Nat
  deriving DecidableEq

/-- The constructor `Port(size_t maxQueueSize = 100)`: empty queue,
watermark `0`. -/
def Port.init (maxQueueSize : Nat := 100) : Port :=
  ⟨[], 0, maxQueueSize⟩

/-- Operation `Port::write` (`port.h`, lines 73-81): if the packet's timestamp is
strictly above the watermark, pop the front when the queue is at (or
above) capacity, update the watermark, and push the packet at the back;
otherwise do nothing. -/
def Port.write (port : Port) (packet : Packet) : Port :=
  if packet.timestamp > port.latestTimestamp then
    let q :=
      if port.dataQueue.length ≥ port.maxQueueSize then
        port.dataQueue.tail
      else
        port.dataQueue
    { port with dataQueue := q ++ [packet], latestTimestamp := packet.timestamp }
  else
    port

/-- Operation `Port::read` (`port.h`, lines 89-96): an empty queue yields the
default-constructed (invalid) packet and leaves the port unchanged;
otherwise the front packet is moved out and popped. -/
def Port.read (port : Port) : Packet × Port :=
  match port.dataQueue with
  | [] => (Packet.emptyPkt, port)
  | p :: rest => (p, { port with dataQueue := rest })

/-- Operation `Port::size`. -/
def Port.size (port : Port) : Nat := port.dataQueue.length

/-- Port move construction (`port.h`, lines 47-51): the destination
takes the queue and watermark — its `MAX_QUEUE_SIZE` is *not* in the
initializer list, so it gets the default member initializer `100` — and
the moved-from port is left with an empty queue (moved-from
`std::deque`) and the sentinel watermark.  Returns
`(destination, moved-from source)`. -/
def Port.moveCtor (src : Port) : Port × Port :=
  (⟨src.dataQueue, src.latestTimestamp, 100⟩,
   ⟨[], kInvalidTimestamp, src.maxQueueSize⟩)

/-- Port move assignment (`port.h`, lines 59-66) between distinct
objects: the destination takes the queue and watermark (its own `const`
capacity is untouched), the source is left empty with the sentinel
watermark.  Returns `(new destination, moved-from source)`. -/
def Port.moveAssign (dst src : Port) : Port × Port :=
  (⟨src.dataQueue, src.latestTimestamp, dst.maxQueueSize⟩,
   ⟨[], kInvalidTimestamp, src.maxQueueSize⟩)

/-! ## Port operation traces

Machinery for claim P2-style statements: run a sequence of `write` /
`read` calls against a port and record the timestamps of the packets the
port *accepted* and the timestamps it actually *dequeued* (a `read` on
an empty queue dequeues nothing and yields the invalid packet). -/

inductive PortOp : Type
  | write (p : Packet)
  | read
  deriving DecidableEq

structure TraceResult : Type where
  port : Port
  accepted : List Int
  dequeued : List Int
  deriving DecidableEq

/-- Run a list of port operations, collecting accepted and dequeued
timestamps in order.  Each step is exactly `Port.write` / `Port.read`;
acceptance is the `write` guard `packet.getTimestamp() > latestTimestamp`. -/
def Port.runOps (port : Port) : List PortOp → TraceResult
  | [] => ⟨port, [], []⟩
  | .write p :: ops =>
    let r := (port.write p).runOps ops
    ⟨r.port,
     (if p.timestamp > port.latestTimestamp then [p.timestamp] else []) ++ r.accepted,
     r.dequeued⟩
  | .read :: ops =>
    match port.dataQueue with
    | [] =>
      let r := port.runOps ops
      ⟨r.port, r.accepted, r.dequeued⟩
    | q :: rest =>
      let r := Port.runOps { port with dataQueue := rest } ops
      ⟨r.port, r.accepted, q.timestamp :: r.dequeued⟩

/-! ## CalculatorContext (`calculatorcontext.h`)

A context holds `std::map`s from string tags to shared port handles and
a shared pointer to the side-packet map.  Two `shared_ptr`s may alias
one `Port` object (that is how adjacent calculators share a port), so a
port handle is modelled as an identifier into a notional port store:
two entries with the same `PortId` denote the same `Port` object.  The
side-packet pointer is null when the context was built by the default
constructor, hence `Option`.  Maps are association lists; `std::map`
lookup is modelled by first-match lookup, and `map[tag] = x` assignment
by consing (which shadows any earlier entry under first-match lookup). -/

abbrev PortId := Nat

/-- Lookup in an association list keyed by tags (first match, like a
`std::map::find` on unique keys). -/
def alookup {β : Type} (tag : String) : List (String × β) → Option β
  | [] => none
  | (k, v) :: rest => if tag = k then some v else alookup tag rest

structure CalculatorContext : Type where
  inputs : List (String × PortId)
  outputs : List (String × PortId)
  sidePackets : Option (List (String × Packet))
  deriving DecidableEq

/-- Reserved tag `kTagInput`. -/
def kTagInput : String := "kTagInput"

/-- Reserved tag `kTagOutput`. -/
def kTagOutput : String := "kTagOutput"

/-- Default constructor `CalculatorContext()` (`calculatorcontext.h`,
lines 40-43): empty port maps; the `const shared_ptr` member
`sidePackets` is default-initialized, i.e. the null pointer. -/
def CalculatorContext.mkDefault : CalculatorContext :=
  ⟨[], [], none⟩

/-- Constructor `CalculatorContext(newSidePacket)` (`calculatorcontext.h`,
lines 50-55): empty port maps, `sidePackets` pointing at the given map. -/
def CalculatorContext.mkWithSide (m : List (String × Packet)) : CalculatorContext :=
  ⟨[], [], some m⟩

/-- Operation `bindInputPort` (`calculatorcontext.h`, lines 84-86):
`inputs[tag] = handle`, overwriting any existing entry. -/
def CalculatorContext.bindInputPort (ctx : CalculatorContext) (tag : String)
    (pid : PortId) : CalculatorContext :=
  { ctx with inputs := (tag, pid) :: ctx.inputs }

/-- Operation `bindOutputPort` (`calculatorcontext.h`, lines 93-95):
`outputs[tag] = handle`, overwriting any existing entry. -/
def CalculatorContext.bindOutputPort (ctx : CalculatorContext) (tag : String)
    (pid : PortId) : CalculatorContext :=
  { ctx with outputs := (tag, pid) :: ctx.outputs }

/-- Operation `getOutputPortTags` (`calculatorcontext.h`, lines 155-161):
the tags of the output map, in map iteration order. -/
def CalculatorContext.getOutputPortTags (ctx : CalculatorContext) : List String :=
  ctx.outputs.map Prod.fst

/-- Outcome of a member call that may dereference the null `sidePackets`
pointer: a value, a thrown error, or undefined behaviour from the null
dereference. -/
inductive Mem (α : Type) : Type
  | ok (a : α)
  | err (e : CppError)
  | nullDeref
  deriving DecidableEq

/-- Operation `getSidePacket` (`calculatorcontext.h`, lines 131-137):
`sidePackets->find(tag)` dereferences the pointer unconditionally, so a
default-constructed context hits a null dereference; otherwise an
unknown tag throws `errUnknownSidePacket tag`. -/
def CalculatorContext.getSidePacket (ctx : CalculatorContext) (tag : String) :
    Mem Packet :=
  match ctx.sidePackets with
  | none => .nullDeref
  | some m =>
    match alookup tag m with
    | none => .err (errUnknownSidePacket tag)
    | some p => .ok p

/-- Operation `hasSidePacket` (`calculatorcontext.h`, lines 186-188):
also dereferences `sidePackets` unconditionally. -/
def CalculatorContext.hasSidePacket (ctx : CalculatorContext) (tag : String) :
    Mem Bool :=
  match ctx.sidePackets with
  | none => .nullDeref
  | some m => .ok (alookup tag m).isSome

/-! ## Scheduler: `connectCalculators` (`scheduler.h`, lines 133-160)

The scheduler owns the calculators in registration order and a context
per calculator (looked up by the calculator's name; names are the
`contexts` map keys, so the list below is the contexts in calculator
order).  The two sentinel ports are denoted by their identifiers. -/

structure Scheduler : Type where
  contexts : List CalculatorContext
  inputPortId : PortId
  outputPortId : PortId
  deriving DecidableEq

/-- The inner loop body of `connectCalculators`: for each output tag of
the upstream context (via `getOutputPortTags` and `getOutputPort`), bind
that same port handle as an input of the downstream context under the
same tag. -/
def connectPair (cur next : CalculatorContext) : CalculatorContext :=
  cur.outputs.foldl (fun nxt e => nxt.bindInputPort e.1 e.2) next

/-- The adjacent-pair loop of `connectCalculators`: pair `i` sees
context `i` as already modified by pair `i-1` (which only bound inputs)
and binds context `i`'s outputs into context `i+1`. -/
def connectChain (cur : CalculatorContext) : List CalculatorContext → List CalculatorContext
  | [] => [cur]
  | next :: rest => cur :: connectChain (connectPair cur next) rest

/-- Apply `f` to the head of a list (the first calculator's context). -/
def mapHead {α : Type} (f : α → α) : List α → List α
  | [] => []
  | a :: rest => f a :: rest

/-- Apply `f` to the last element of a list (the last calculator's
context). -/
def mapLast {α : Type} (f : α → α) : List α → List α
  | [] => []
  | [a] => [f a]
  | a :: b :: rest => a :: mapLast f (b :: rest)

/-- Operation `Scheduler::connectCalculators` (`scheduler.h`, lines
133-160): throws on an empty pipeline; otherwise propagates every output
port of each context to the next context's inputs under the same tag, then
binds the scheduler's external input port into the first context under
`kTagInput` and the external output port into the last context under
`kTagOutput`. -/
def Scheduler.connectCalculators (s : Scheduler) : Except CppError Scheduler :=
  match s.contexts with
  | [] => .error errEmptyPipeline
  | c0 :: rest =>
    let chained := connectChain c0 rest
    let bound :=
      mapLast (fun c => c.bindOutputPort kTagOutput s.outputPortId)
        (mapHead (fun c => c.bindInputPort kTagInput s.inputPortId) chained)
    .ok { s with contexts := bound }

/-! ## Scheduler: the `run` loop (`scheduler.h`, lines 187-232)

Calculators are black boxes to the scheduler, and the loop's other
effects (the input callback's `inputPort.write`, the lifecycle calls on
the shared ports, the output callback fed from `readFromOutputPort`, and
the clock) act on state the scheduler does not inspect except through
the frame-budget test.  That state is an opaque `world` `σ`:
`inCb` models step 1 of an iteration (input callback plus enqueue),
`lifecycle i` models `enter; process; close` of calculator `i` and may
throw, `outCb` models the output-callback step, and `elapsed` is the
test `now() - startTimeFrame >= FRAME_RATE_MS`.  The loop is bounded by
fuel (the C++ loop can run unboundedly); exhausted fuel returns
normally, which only weakens liveness, not the claims proved here. -/

structure SchedState (σ : Type) : Type where
  n : Nat
  current_index : Nat
  running : Bool
  world : σ

/-- The `while (running)` loop of `Scheduler::run`: an exception from
`enter`/`process`/`close` propagates immediately (there is no handler),
leaving `current_index` untouched; on success the output-callback step
runs, the cursor advances modulo `n`, and the loop exits when the frame
budget is consumed.  Returns the outcome together with the scheduler
object's surviving state. -/
def runLoop {σ : Type} (inCb : σ → σ) (lifecycle : Nat → σ → Except CppError σ)
    (outCb : σ → σ) (elapsed : σ → Bool) :
    Nat → SchedState σ → Except CppError Unit × SchedState σ
  | 0, st => (.ok (), st)
  | fuel + 1, st =>
    if st.running then
      match lifecycle st.current_index (inCb st.world) with
      | .error e => (.error e, { st with world := inCb st.world })
      | .ok w2 =>
        if elapsed (outCb w2) then
          (.ok (), { st with world := outCb w2,
                             current_index := (st.current_index + 1) % st.n })
        else
          runLoop inCb lifecycle outCb elapsed fuel
            { st with world := outCb w2,
                      current_index := (st.current_index + 1) % st.n }
    else (.ok (), st)

/-! ## Sample values used by witnesses -/

/-- A port of capacity 1 already holding one packet with timestamp 1,
watermark 1 (the state after a fresh `Port(1)` accepted that packet). -/
def samplePort : Port :=
  ⟨[⟨some (.pInt 1), 1⟩], 1, 1⟩

/-- A valid packet with timestamp 2. -/
def samplePkt : Packet :=
  ⟨some (.pInt 2), 2⟩

/-- A port of capacity 100 that has accepted a packet with timestamp 5. -/
def samplePort5 : Port :=
  ⟨[⟨some (.pInt 9), 5⟩], 5, 100⟩

/-- A stale packet with timestamp 1 (below `samplePort5`'s watermark 5
but above the sentinel). -/
def staleNewPkt : Packet :=
  ⟨some (.pInt 3), 1⟩

/-! ## Claims about `Port::write` -/

/--
**C1.** `Port::write` accepts a packet iff its timestamp is strictly
greater than `latestTimestamp`; on acceptance, if the queue already
holds capacity-many packets the front (oldest) element is evicted before
the new packet is pushed at the back and `latestTimestamp` is updated to
the new packet's timestamp, so the queue length never exceeds the
capacity; otherwise the port is left unchanged (the packet is silently
dropped).  Stated for ports with positive capacity whose queue is within
capacity (the invariant every reachable port satisfies).
-/
theorem port_write_spec (port : Port) (p : Packet)
    (hcap : 0 < port.maxQueueSize)
    (hlen : port.dataQueue.length ≤ port.maxQueueSize) :
    (¬ p.timestamp > port.latestTimestamp → port.write p = port) ∧
    (p.timestamp > port.latestTimestamp →
      (port.write p).latestTimestamp = p.timestamp ∧
      (port.write p).dataQueue =
        (if port.maxQueueSize ≤ port.dataQueue.length then port.dataQueue.tail
         else port.dataQueue) ++ [p] ∧
      (port.write p).dataQueue.length ≤ port.maxQueueSize) := by
  constructor
  · intro hno
    simp [Port.write, hno]
  · intro hyes
    refine ⟨by simp [Port.write, hyes], by simp [Port.write, hyes, ge_iff_le], ?_⟩
    simp only [Port.write, hyes, if_true, ge_iff_le]
    by_cases hfull : port.maxQueueSize ≤ port.dataQueue.length
    · have hq : port.dataQueue.length = port.maxQueueSize := le_antisymm hlen hfull
      have hpos : 0 < port.dataQueue.length := hq ▸ hcap
      simp [hfull, List.length_tail]
      omega
    · have : port.dataQueue.length < port.maxQueueSize := lt_of_not_le hfull
      simp [hfull]
      omega

/-- Witness for `port_write_spec` at a full capacity-1 port and a fresh
packet: the old front is evicted, the new packet is the whole queue, the
watermark becomes 2. -/
theorem port_write_spec_witness :
    (samplePort.write samplePkt).latestTimestamp = 2 ∧
    (samplePort.write samplePkt).dataQueue = [samplePkt] := by
  have h := (port_write_spec samplePort samplePkt (by decide) (by decide)).2
    (by decide)
  exact ⟨h.1, h.2.1.trans (by decide)⟩

/-! ## Claims about the timestamp generator -/

/--
**C2.** The specification (and the source's own comments) say
`currentTimestamp` converts the monotonic clock reading to
*microseconds*; the code computes
`tv_sec * 10000000LL + tv_nsec`, which at the reading (1 s, 0 ns) gives
10000000 instead of the 1000000 microseconds one second amounts to.
(The remaining conjuncts of the claim — bump to `lastIssued + 1` on a
non-increasing reading, storing the result, strict increase — do hold;
see `genTimestamps_strictMono`.)
-/
theorem currentTimestamp_not_micros :
    convertReading ⟨1, 0⟩ = 10000000 ∧
    microsOfReading ⟨1, 0⟩ = 1000000 ∧
    convertReading ⟨1, 0⟩ ≠ microsOfReading ⟨1, 0⟩ := by
  refine ⟨by decide, by decide, by decide⟩

/-- Supporting fact for C2: every value `currentTimestamp` returns is
strictly above the `lastTimestamp` it started from, so across any
sequence of calls the returned values strictly increase. -/
theorem genTimestamps_strictMono (rs : List TimeSpec) (last : Int) :
    (genTimestamps last rs).Chain' (· < ·) ∧
    ∀ x ∈ genTimestamps last rs, last < x := by
  induction rs generalizing last with
  | nil => simp [genTimestamps]
  | cons ts rest ih =>
    have hstep : last < (currentTimestamp ts last).1 := by
      simp only [currentTimestamp]
      split <;> omega
    have hsame : (currentTimestamp ts last).2 = (currentTimestamp ts last).1 := rfl
    obtain ⟨ihchain, ihlt⟩ := ih (currentTimestamp ts last).2
    constructor
    · refine List.chain'_cons'.2 ⟨?_, ihchain⟩
      intro y hy
      have := ihlt y (by
        cases h : genTimestamps (currentTimestamp ts last).2 rest with
        | nil => simp [h] at hy
        | cons a l => simp [h] at hy; simp [hy])
      omega
    · intro x hx
      simp only [genTimestamps, List.mem_cons] at hx
      rcases hx with rfl | hx
      · exact hstep
      · have := ihlt x hx
        omega

/-- Witness for `genTimestamps_strictMono` at two readings where the
clock stalls: the generator still strictly increases. -/
theorem genTimestamps_strictMono_witness :
    (genTimestamps 0 [⟨0, 7⟩, ⟨0, 7⟩]).Chain' (· < ·) ∧
    ∀ x ∈ genTimestamps 0 [⟨0, 7⟩, ⟨0, 7⟩], (0:Int) < x :=
  genTimestamps_strictMono [⟨0, 7⟩, ⟨0, 7⟩] 0

/-! ## Claims about `Packet::get` -/

/--
**C4.** `Packet::get<T>` fails with the `kindEmpty` error
(`errPacketEmpty`) when the packet's payload is null, fails with the
`kindTypeMismatch` error (`errTypeMismatch`) when the erased payload was
constructed with a type distinct from `T`, and otherwise returns the
stored value (whose erased type is `T`).
-/
theorem packet_get_spec (p : Packet) (T : Ty) :
    (p.holder = none → p.get T = .error errPacketEmpty) ∧
    (∀ pay, p.holder = some pay → pay.ty ≠ T →
      p.get T = .error errTypeMismatch) ∧
    (∀ pay, p.holder = some pay → pay.ty = T → p.get T = .ok pay) := by
  refine ⟨fun h => by simp [Packet.get, h], fun pay h hne => ?_, fun pay h he => ?_⟩
  · simp [Packet.get, h, hne]
  · simp [Packet.get, h, he]

/-- Witness for `packet_get_spec`: an `int` packet yields its payload at
type `int`, mismatches at type `string`, and the moved-from/empty packet
is reported empty. -/
theorem packet_get_spec_witness :
    Packet.get .tInt ⟨some (.pInt 42), 3⟩ = .ok (.pInt 42) ∧
    Packet.get .tStr ⟨some (.pInt 42), 3⟩ = .error errTypeMismatch ∧
    Packet.get .tInt Packet.emptyPkt = .error errPacketEmpty := by
  refine ⟨(packet_get_spec ⟨some (.pInt 42), 3⟩ .tInt).2.2 (.pInt 42) rfl (by decide),
          (packet_get_spec ⟨some (.pInt 42), 3⟩ .tStr).2.1 (.pInt 42) rfl (by decide),
          (packet_get_spec Packet.emptyPkt .tInt).1 rfl⟩

/-! ## Claims about packet moves -/

/--
**C6.** Moving a valid packet (move construction, and move assignment
between distinct objects, share this semantics) leaves the source
invalid — null holder and sentinel timestamp — while the destination
carries the source's original payload and timestamp.
-/
theorem packet_move_spec (a : Packet) (_h : a.isValid = true) :
    (a.moveFrom).2.isValid = false ∧
    (a.moveFrom).2.holder = none ∧
    (a.moveFrom).2.timestamp = kInvalidTimestamp ∧
    (a.moveFrom).1.timestamp = a.timestamp ∧
    (a.moveFrom).1.holder = a.holder := by
  exact ⟨rfl, rfl, rfl, rfl, rfl⟩

/-- Witness for `packet_move_spec` at a concrete valid packet. -/
theorem packet_move_spec_witness :
    ((⟨some (.pInt 42), 7⟩ : Packet).moveFrom).2.isValid = false ∧
    ((⟨some (.pInt 42), 7⟩ : Packet).moveFrom).1.timestamp = 7 := by
  have h := packet_move_spec ⟨some (.pInt 42), 7⟩ (by decide)
  exact ⟨h.1, h.2.2.2.1⟩

/-! ## Claims about the error taxonomy -/

/--
**C7 (counterexample).** The claim says the five error kinds are
surfaced as five mutually distinct variants, distinguishable without the
message text; but `kindEmpty` and `kindTypeMismatch` are both thrown as
the same exception class `PacketException`, so the surfaced variant does
not separate them.
-/
theorem errKinds_not_distinct_variants :
    ErrKind.kindEmpty ≠ ErrKind.kindTypeMismatch ∧
    (ErrKind.kindEmpty.surface).cls = (ErrKind.kindTypeMismatch.surface).cls := by
  exact ⟨by decide, rfl⟩

/--
**C7 (amended).** The five error kinds are surfaced through only two
exception classes — `PacketException` for `kindEmpty` and
`kindTypeMismatch`, `CalculatorException` for `kindUnknownPort`,
`kindUnknownSideParameter` and `kindEmptyPipeline` — so distinguishing
two kinds of the same class requires the message text; the raise-site
messages of distinct kinds are pairwise distinct, so class plus message
does distinguish any two kinds.
-/
theorem errKinds_two_classes_distinct_messages :
    ((ErrKind.kindEmpty.surface).cls = .packetException ∧
     (ErrKind.kindTypeMismatch.surface).cls = .packetException ∧
     (ErrKind.kindUnknownPort.surface).cls = .calculatorException ∧
     (ErrKind.kindUnknownSideParameter.surface).cls = .calculatorException ∧
     (ErrKind.kindEmptyPipeline.surface).cls = .calculatorException) ∧
    (∀ k k' : ErrKind, k ≠ k' → k.surface ≠ k'.surface) := by
  refine ⟨⟨rfl, rfl, rfl, rfl, rfl⟩, ?_⟩
  intro k k' hne
  cases k <;> cases k' <;> first
    | exact absurd rfl hne
    | decide

/-- Witness for `errKinds_two_classes_distinct_messages`: the two
`PacketException` kinds carry different messages. -/
theorem errKinds_two_classes_witness :
    ErrKind.kindEmpty.surface ≠ ErrKind.kindTypeMismatch.surface :=
  errKinds_two_classes_distinct_messages.2 .kindEmpty .kindTypeMismatch (by decide)

/-! ## Claims about port moves -/

/--
**C9.** After `Port` move-construction or move-assignment the moved-from
port has an empty queue and its watermark is the (negative) sentinel
`kInvalidTimestamp`, so it accepts any packet whose timestamp exceeds
the sentinel: a subsequent `write` of such a packet lands in the queue
and resets the watermark to that packet's timestamp — even when the
timestamp is below values the port accepted before the move, so
monotonic admission is not preserved across a move.
-/
theorem port_move_resets_admission (src dst : Port) (p : Packet)
    (hp : p.timestamp > kInvalidTimestamp) :
    ((src.moveCtor).2.dataQueue = [] ∧
     (src.moveCtor).2.latestTimestamp = kInvalidTimestamp) ∧
    ((Port.moveAssign dst src).2.dataQueue = [] ∧
     (Port.moveAssign dst src).2.latestTimestamp = kInvalidTimestamp) ∧
    kInvalidTimestamp < 0 ∧
    ((src.moveCtor).2.write p).dataQueue = [p] ∧
    ((src.moveCtor).2.write p).latestTimestamp = p.timestamp := by
  refine ⟨⟨rfl, rfl⟩, ⟨rfl, rfl⟩, by decide, ?_, ?_⟩
  · simp only [Port.moveCtor, Port.write, hp, if_true]
    split <;> rfl
  · simp [Port.moveCtor, Port.write, hp]

/-- Witness for `port_move_resets_admission`: a port that accepted
timestamp 5 is moved from; it then accepts a packet with timestamp 1
(≤ 5, > sentinel). -/
theorem port_move_resets_admission_witness :
    ((samplePort5.moveCtor).2.write staleNewPkt).dataQueue = [staleNewPkt] ∧
    ((samplePort5.moveCtor).2.write staleNewPkt).latestTimestamp = 1 := by
  have h := port_move_resets_admission samplePort5 (Port.init 100) staleNewPkt
    (by decide)
  exact ⟨h.2.2.2.1, h.2.2.2.2⟩

/-! ## Claims about side parameters -/

/--
**C10.** A context built by the default constructor has a null
side-packet map pointer, so `getSidePacket` and `hasSidePacket`
dereference a null pointer for every tag instead of failing with
`kindUnknownSideParameter`; with a (possibly empty) side-parameter map
supplied at construction, no null dereference occurs and an unknown tag
fails with the `kindUnknownSideParameter` error.
-/
theorem sidePacket_null_deref (tag : String) (m : List (String × Packet)) :
    CalculatorContext.mkDefault.getSidePacket tag = .nullDeref ∧
    CalculatorContext.mkDefault.hasSidePacket tag = .nullDeref ∧
    ((CalculatorContext.mkWithSide m).getSidePacket tag ≠ .nullDeref ∧
     (CalculatorContext.mkWithSide m).hasSidePacket tag ≠ .nullDeref) ∧
    (alookup tag m = none →
      (CalculatorContext.mkWithSide m).getSidePacket tag =
        .err (errUnknownSidePacket tag)) := by
  refine ⟨rfl, rfl, ⟨?_, ?_⟩, fun hnone => ?_⟩
  · simp only [CalculatorContext.getSidePacket, CalculatorContext.mkWithSide]
    split <;> simp
  · simp [CalculatorContext.hasSidePacket, CalculatorContext.mkWithSide]
  · simp [CalculatorContext.getSidePacket, CalculatorContext.mkWithSide, hnone]

/-- Witness for `sidePacket_null_deref` at tag `"k"` and the empty map. -/
theorem sidePacket_null_deref_witness :
    CalculatorContext.mkDefault.getSidePacket "k" = .nullDeref ∧
    (CalculatorContext.mkWithSide []).getSidePacket "k" =
      .err (errUnknownSidePacket "k") := by
  have h := sidePacket_null_deref "k" []
  exact ⟨h.1, h.2.2.2 rfl⟩

/-! ## Claims about the run loop -/

/--
**C8.** If a calculator's `enter`/`process`/`close` raises during
`Scheduler::run`, the exception propagates out of `run` uncaught (the
loop has no handler), and the scheduler's cursor still designates the
failing calculator: the surviving state's `current_index` is exactly the
index whose lifecycle produced the error on the surviving world, i.e.
the cursor was not advanced past the failing calculator.
-/
theorem run_propagates_exception {σ : Type} (inCb : σ → σ)
    (lifecycle : Nat → σ → Except CppError σ) (outCb : σ → σ)
    (elapsed : σ → Bool) (fuel : Nat) (st st' : SchedState σ) (e : CppError)
    (h : runLoop inCb lifecycle outCb elapsed fuel st = (.error e, st')) :
    lifecycle st'.current_index st'.world = .error e := by
  induction fuel generalizing st with
  | zero => simp [runLoop] at h
  | succ n ih =>
    rw [runLoop] at h
    split at h
    · split at h
      · rename_i heq
        obtain ⟨h1, h2⟩ := Prod.mk.injEq _ _ _ _ |>.mp h
        cases h1
        cases h2
        exact heq
      · split at h
        · simp at h
        · exact ih _ h
    · simp at h

/-- Concrete scheduler state for the run-loop witness: one calculator,
cursor 0, running, trivial world. -/
def sampleState : SchedState Nat := ⟨1, 0, true, 0⟩

/-- A lifecycle that always throws (e.g. `process` raising on a bad
payload). -/
def failingLifecycle : Nat → Nat → Except CppError Nat :=
  fun _ _ => .error errTypeMismatch

/-- Witness for `run_propagates_exception`: one loop iteration against a
throwing calculator returns its error with the cursor still at it. -/
theorem run_propagates_exception_witness :
    failingLifecycle sampleState.current_index sampleState.world =
      .error errTypeMismatch :=
  run_propagates_exception id failingLifecycle id (fun _ => false) 1
    sampleState sampleState errTypeMismatch rfl

/-! ## Claims about `Port::read` and port FIFO order -/

/-- Auxiliary: the dequeued timestamps of any operation trace form a
subsequence of the current queue's timestamps followed by the accepted
timestamps, in order. -/
theorem runOps_dequeued_sublist (ops : List PortOp) (port : Port) :
    ((port.runOps ops).dequeued).Sublist
      ((port.dataQueue.map Packet.timestamp) ++ (port.runOps ops).accepted) := by
  induction ops generalizing port with
  | nil => simp [Port.runOps]
  | cons op ops ih =>
    cases op with
    | write p =>
      have ihw := ih (port.write p)
      by_cases hacc : p.timestamp > port.latestTimestamp
      · simp only [Port.runOps, hacc, if_true]
        have hq : (port.write p).dataQueue =
            (if port.dataQueue.length ≥ port.maxQueueSize then
              port.dataQueue.tail else port.dataQueue) ++ [p] := by
          simp [Port.write, hacc]
        rw [hq] at ihw
        refine ihw.trans ?_
        have hsub : (if port.dataQueue.length ≥ port.maxQueueSize then
            port.dataQueue.tail else port.dataQueue).Sublist port.dataQueue := by
          split
          · exact List.tail_sublist _
          · exact List.Sublist.refl _
        have := (hsub.map Packet.timestamp).append_right
          ([p.timestamp] ++ (Port.runOps (port.write p) ops).accepted)
        simpa [List.map_append, List.append_assoc] using this
      · have hw : port.write p = port := by simp [Port.write, hacc]
        simp only [Port.runOps, hacc, if_false, hw]
        simpa using ih port
    | read =>
      cases hq : port.dataQueue with
      | nil =>
        have ihr := ih port
        rw [hq] at ihr
        simp only [Port.runOps, hq]
        simpa using ihr
      | cons q rest =>
        have ihr := ih { port with dataQueue := rest }
        simp only [Port.runOps, hq]
        simpa using List.Sublist.cons₂ q.timestamp (by simpa using ihr)

/--
**C3 (counterexample).** The claim says the sequence of timestamps
dequeued equals the sequence accepted; on a capacity-1 port accepting
timestamps 1 then 2 (the second write evicts the first packet) a read
dequeues only timestamp 2, so the dequeued sequence `[2]` differs from
the accepted sequence `[1, 2]`.
-/
theorem port_trace_dequeued_ne_accepted :
    ((Port.init 1).runOps
      [.write ⟨some (.pInt 1), 1⟩, .write ⟨some (.pInt 2), 2⟩, .read]).accepted
      = [1, 2] ∧
    ((Port.init 1).runOps
      [.write ⟨some (.pInt 1), 1⟩, .write ⟨some (.pInt 2), 2⟩, .read]).dequeued
      = [2] ∧
    ((Port.init 1).runOps
      [.write ⟨some (.pInt 1), 1⟩, .write ⟨some (.pInt 2), 2⟩, .read]).dequeued
      ≠ ((Port.init 1).runOps
      [.write ⟨some (.pInt 1), 1⟩, .write ⟨some (.pInt 2), 2⟩, .read]).accepted := by
  refine ⟨by decide, by decide, by decide⟩

/--
**C3 (amended).** `Port::read` on an empty queue returns the invalid
packet and never raises; on a non-empty queue it removes and returns the
front element.  Consequently, for any sequence of writes and reads, the
sequence of timestamps dequeued is an order-preserving subsequence of
the sequence of timestamps accepted (earliest first); it can be a proper
subsequence, because packets evicted at capacity (see the
counterexample) or still queued are accepted but never dequeued.
-/
theorem port_read_fifo (port : Port) :
    (port.dataQueue = [] → port.read = (Packet.emptyPkt, port)) ∧
    (∀ q rest, port.dataQueue = q :: rest →
      port.read = (q, { port with dataQueue := rest })) ∧
    (∀ ops cap, (((Port.init cap).runOps ops).dequeued).Sublist
      (((Port.init cap).runOps ops).accepted)) := by
  refine ⟨fun h => by simp [Port.read, h], fun q rest h => by simp [Port.read, h],
    fun ops cap => ?_⟩
  simpa using runOps_dequeued_sublist ops (Port.init cap)

/-- Witness for `port_read_fifo`: reads on an empty and a one-element
port, and the subsequence property on a concrete eviction trace. -/
theorem port_read_fifo_witness :
    (Port.init 100).read = (Packet.emptyPkt, Port.init 100) ∧
    samplePort.read = (⟨some (.pInt 1), 1⟩, { samplePort with dataQueue := [] }) ∧
    (((Port.init 1).runOps
      [.write ⟨some (.pInt 1), 1⟩, .write ⟨some (.pInt 2), 2⟩, .read]).dequeued).Sublist
      (((Port.init 1).runOps
      [.write ⟨some (.pInt 1), 1⟩, .write ⟨some (.pInt 2), 2⟩, .read]).accepted) :=
  ⟨(port_read_fifo (Port.init 100)).1 rfl,
   (port_read_fifo samplePort).2.1 ⟨some (.pInt 1), 1⟩ [] rfl,
   (port_read_fifo (Port.init 1)).2.2
     [.write ⟨some (.pInt 1), 1⟩, .write ⟨some (.pInt 2), 2⟩, .read] 1⟩

/-! ## Claims about `connectCalculators` -/

theorem foldl_bind_outputs (l : List (String × PortId)) (next : CalculatorContext) :
    (l.foldl (fun nxt e => nxt.bindInputPort e.1 e.2) next).outputs = next.outputs := by
  induction l generalizing next with
  | nil => rfl
  | cons e l ih => exact ih _

theorem connectPair_outputs (cur next : CalculatorContext) :
    (connectPair cur next).outputs = next.outputs :=
  foldl_bind_outputs cur.outputs next

theorem foldl_bind_inputs_of_notMem (l : List (String × PortId))
    (next : CalculatorContext) (tag : String) (h : tag ∉ l.map Prod.fst) :
    alookup tag (l.foldl (fun nxt e => nxt.bindInputPort e.1 e.2) next).inputs =
      alookup tag next.inputs := by
  induction l generalizing next with
  | nil => rfl
  | cons e l ih =>
    simp only [List.map_cons, List.mem_cons, not_or] at h
    rw [List.foldl_cons, ih _ h.2]
    simp [CalculatorContext.bindInputPort, alookup, h.1]

theorem foldl_bind_inputs_of_lookup (l : List (String × PortId))
    (next : CalculatorContext) (tag : String) (pid : PortId)
    (hnd : (l.map Prod.fst).Nodup) (hl : alookup tag l = some pid) :
    alookup tag (l.foldl (fun nxt e => nxt.bindInputPort e.1 e.2) next).inputs =
      some pid := by
  induction l generalizing next with
  | nil => simp [alookup] at hl
  | cons e l ih =>
    simp only [List.map_cons, List.nodup_cons] at hnd
    by_cases he : tag = e.1
    · have hpid : some e.2 = some pid := by
        rw [← hl]
        simp [alookup, he]
      rw [List.foldl_cons,
        foldl_bind_inputs_of_notMem l _ tag (he ▸ hnd.1)]
      simpa [CalculatorContext.bindInputPort, alookup, he] using hpid
    · have hl' : alookup tag l = some pid := by
        simpa [alookup, he] using hl
      rw [List.foldl_cons]
      exact ih _ hnd.2 hl'

theorem connectChain_length (rest : List CalculatorContext)
    (c : CalculatorContext) :
    (connectChain c rest).length = rest.length + 1 := by
  induction rest generalizing c with
  | nil => rfl
  | cons next rest ih => simpa [connectChain] using ih (connectPair c next)

theorem connectChain_head (rest : List CalculatorContext)
    (c : CalculatorContext) :
    (connectChain c rest)[0]? = some c := by
  cases rest <;> simp [connectChain]

theorem connectChain_adj : ∀ (rest : List CalculatorContext)
    (c : CalculatorContext),
    (∀ x ∈ c :: rest, (x.outputs.map Prod.fst).Nodup) →
    ∀ (i : Nat) (tag : String) (pid : PortId) (co ci : CalculatorContext),
    (c :: rest)[i]? = some co →
    (connectChain c rest)[i+1]? = some ci →
    alookup tag co.outputs = some pid →
    alookup tag ci.inputs = some pid
  | [], c, _hnd, i, tag, pid, co, ci, _hco, hci, _hlook => by
    simp [connectChain] at hci
  | next :: rest, c, hnd, i, tag, pid, co, ci, hco, hci, hlook => by
    rw [show connectChain c (next :: rest)
        = c :: connectChain (connectPair c next) rest from rfl] at hci
    have hnd' : ∀ x ∈ connectPair c next :: rest,
        (x.outputs.map Prod.fst).Nodup := by
      intro x hx
      rcases List.mem_cons.mp hx with rfl | hx
      · rw [connectPair_outputs]
        exact hnd next (by simp)
      · exact hnd x (by simp [hx])
    cases i with
    | zero =>
      rw [List.getElem?_cons_zero] at hco
      rw [List.getElem?_cons_succ, connectChain_head] at hci
      obtain rfl : c = co := by injection hco
      obtain rfl : connectPair c next = ci := by injection hci
      exact foldl_bind_inputs_of_lookup c.outputs next tag pid
        (hnd c (by simp)) hlook
    | succ j =>
      rw [List.getElem?_cons_succ] at hco hci
      cases j with
      | zero =>
        rw [List.getElem?_cons_zero] at hco
        obtain rfl : next = co := by injection hco
        refine connectChain_adj rest (connectPair c next) hnd' 0 tag pid
          (connectPair c next) ci (by rw [List.getElem?_cons_zero]) hci ?_
        rw [connectPair_outputs]
        exact hlook
      | succ k =>
        rw [List.getElem?_cons_succ] at hco
        exact connectChain_adj rest (connectPair c next) hnd' (k+1) tag pid
          co ci (by rw [List.getElem?_cons_succ]; exact hco) hci hlook

theorem mapLast_getElem?_of_inputs_preserved
    (g : CalculatorContext → CalculatorContext)
    (hg : ∀ x, (g x).inputs = x.inputs)
    (l : List CalculatorContext) (i : Nat) :
    ((mapLast g l)[i]?).map CalculatorContext.inputs =
      (l[i]?).map CalculatorContext.inputs := by
  induction l generalizing i with
  | nil => rfl
  | cons a l ih =>
    cases l with
    | nil =>
      cases i with
      | zero => simp [mapLast, hg]
      | succ j => simp [mapLast]
    | cons b l =>
      cases i with
      | zero =>
        rw [show mapLast g (a :: b :: l) = a :: mapLast g (b :: l) from rfl]
        simp
      | succ j =>
        rw [show mapLast g (a :: b :: l) = a :: mapLast g (b :: l) from rfl]
        simpa using ih j

theorem mapLast_getLast? (g : CalculatorContext → CalculatorContext)
    (l : List CalculatorContext) :
    (mapLast g l).getLast? = l.getLast?.map g := by
  induction l with
  | nil => rfl
  | cons a l ih =>
    cases l with
    | nil => rfl
    | cons b l =>
      obtain ⟨x, xs, hxx⟩ : ∃ x xs, mapLast g (b :: l) = x :: xs := by
        cases l <;> exact ⟨_, _, rfl⟩
      rw [show mapLast g (a :: b :: l) = a :: mapLast g (b :: l) from rfl,
        hxx, List.getLast?_cons_cons, ← hxx, ih, List.getLast?_cons_cons]

theorem mapLast_length (g : CalculatorContext → CalculatorContext)
    (l : List CalculatorContext) :
    (mapLast g l).length = l.length := by
  induction l with
  | nil => rfl
  | cons a l ih =>
    cases l with
    | nil => rfl
    | cons b l =>
      rw [show mapLast g (a :: b :: l) = a :: mapLast g (b :: l) from rfl]
      simpa using ih

theorem mapHead_length (f : CalculatorContext → CalculatorContext)
    (l : List CalculatorContext) :
    (mapHead f l).length = l.length := by
  cases l <;> rfl

/--
**C5.** `Scheduler::connectCalculators` fails with the
`kindEmptyPipeline` error when no calculators are registered; otherwise
it succeeds and, for each adjacent pair of contexts and each output tag
of the upstream context, the downstream context's input map now carries
the same port handle under the same tag; the scheduler's external input
port is bound into the first context under `kTagInput` and the external
output port into the last context under `kTagOutput`.  (Hypothesis: each
output map has distinct tags, which holds for every context since
`outputs` is a `std::map`.)
-/
theorem scheduler_connect_spec (s : Scheduler)
    (hnd : ∀ c ∈ s.contexts, (c.outputs.map Prod.fst).Nodup) :
    (s.contexts = [] → s.connectCalculators = .error errEmptyPipeline) ∧
    (s.contexts ≠ [] → ∃ s', s.connectCalculators = .ok s' ∧
      s'.contexts.length = s.contexts.length ∧
      (∀ i tag pid co ci, s.contexts[i]? = some co →
        s'.contexts[i+1]? = some ci →
        alookup tag co.outputs = some pid →
        alookup tag ci.inputs = some pid) ∧
      (∀ c0, s'.contexts[0]? = some c0 →
        alookup kTagInput c0.inputs = some s.inputPortId) ∧
      (∀ cl, s'.contexts.getLast? = some cl →
        alookup kTagOutput cl.outputs = some s.outputPortId)) := by
  constructor
  · intro hempty
    simp [Scheduler.connectCalculators, hempty]
  · intro hne
    match hs : s.contexts with
    | [] => exact absurd hs hne
    | c0 :: rest =>
      obtain ⟨ltail, hlt⟩ : ∃ l, connectChain c0 rest = c0 :: l := by
        cases rest with
        | nil => exact ⟨[], rfl⟩
        | cons a r => exact ⟨_, rfl⟩
      have hpres : ∀ x : CalculatorContext,
          ((fun c : CalculatorContext =>
            c.bindOutputPort kTagOutput s.outputPortId) x).inputs = x.inputs :=
        fun _ => rfl
      refine ⟨Scheduler.mk
          (mapLast (fun c => c.bindOutputPort kTagOutput s.outputPortId)
            (mapHead (fun c => c.bindInputPort kTagInput s.inputPortId)
              (connectChain c0 rest)))
          s.inputPortId s.outputPortId,
        by simp only [Scheduler.connectCalculators, hs], ?_, ?_, ?_, ?_⟩
      · rw [mapLast_length, mapHead_length, connectChain_length]
        simp
      · intro i tag pid co ci hco hci hlook
        have h1 := mapLast_getElem?_of_inputs_preserved _ hpres
          (mapHead (fun c => c.bindInputPort kTagInput s.inputPortId)
            (connectChain c0 rest)) (i+1)
        rw [hci] at h1
        have h2 : (mapHead (fun c => c.bindInputPort kTagInput s.inputPortId)
            (connectChain c0 rest))[i+1]? = (connectChain c0 rest)[i+1]? := by
          rw [hlt]
          simp [mapHead]
        rw [h2] at h1
        cases hx : (connectChain c0 rest)[i+1]? with
        | none => rw [hx] at h1; simp at h1
        | some x =>
          rw [hx] at h1
          simp only [Option.map_some'] at h1
          have hinp : ci.inputs = x.inputs := by injection h1
          rw [hinp]
          refine connectChain_adj rest c0 ?_ i tag pid co x hco hx hlook
          intro y hy
          exact hnd y (by rw [hs]; exact hy)
      · intro cz hcz
        have h1 := mapLast_getElem?_of_inputs_preserved _ hpres
          (mapHead (fun c => c.bindInputPort kTagInput s.inputPortId)
            (connectChain c0 rest)) 0
        rw [hcz, hlt] at h1
        simp only [mapHead, List.getElem?_cons_zero, Option.map_some'] at h1
        have : cz.inputs =
            ((c0.bindInputPort kTagInput s.inputPortId)).inputs := by
          injection h1
        rw [this]
        simp [CalculatorContext.bindInputPort, alookup, kTagInput]
      · intro cl hcl
        have h2 := mapLast_getLast?
          (fun c => c.bindOutputPort kTagOutput s.outputPortId)
          (mapHead (fun c => c.bindInputPort kTagInput s.inputPortId)
            (connectChain c0 rest))
        rw [hcl, hlt] at h2
        simp only [mapHead] at h2
        cases hy : (c0.bindInputPort kTagInput s.inputPortId :: ltail).getLast? with
        | none => simp [hy] at h2
        | some y =>
          rw [hy] at h2
          simp only [Option.map_some'] at h2
          have : cl = y.bindOutputPort kTagOutput s.outputPortId := by
            injection h2
          rw [this]
          simp [CalculatorContext.bindOutputPort, alookup, kTagOutput]

/-- First sample context: publishes its output under tag `"X"` as port
handle 3. -/
def ctxA : CalculatorContext := ⟨[], [("X", 3)], none⟩

/-- Second sample context: publishes its output under tag `"Y"` as port
handle 4. -/
def ctxB : CalculatorContext := ⟨[], [("Y", 4)], none⟩

/-- A two-calculator scheduler with external ports 1 and 2. -/
def sampleSched : Scheduler := ⟨[ctxA, ctxB], 1, 2⟩

/-- Witness for `scheduler_connect_spec` on the two-calculator sample:
connection succeeds, the second context reads `"X"` from the first
context's port handle 3, and the first context has the external input
port bound under `kTagInput`. -/
theorem scheduler_connect_spec_witness :
    ∃ s', sampleSched.connectCalculators = .ok s' ∧
      (∀ ci, s'.contexts[1]? = some ci → alookup "X" ci.inputs = some 3) ∧
      (∀ c0, s'.contexts[0]? = some c0 →
        alookup kTagInput c0.inputs = some sampleSched.inputPortId) := by
  obtain ⟨s', hok, _hlen, hadj, hfirst, _hlast⟩ :=
    (scheduler_connect_spec sampleSched (by decide)).2 (by decide)
  exact ⟨s', hok,
    fun ci hci => hadj 0 "X" 3 ctxA ci rfl hci (by decide), hfirst⟩

end FilterPipeline
